import Mathlib

/-!
Verification of the resumable chunked transfer engine of the
telegram-cloud-service repository.

Shallow embedding of:
* `client/splitter.py` — `split_file`, the Chunker;
* `client/downloader.py` — `join_files_here`, `download_part_worker` and
  `perform_download`, the Joiner and Download Manager;
* `client/uploader_bot.py` — `perform_upload`, the Upload Manager actually
  imported by `client/main.py`;
* `client/uploader.py` — the legacy Upload Manager variant with
  `UPLOAD_RETRIES = 10`.

Modelling conventions: a file is its list of bytes (`Bytes := List Nat`);
part files are modelled by their byte contents rather than on-disk paths;
a Telegram message locator is a `MsgInfo` record (`message_id`, `file_id`).
Network transports are abstracted as outcome functions indexed by part
(or file id) and attempt number — exactly the information the retry loops
inspect.  Wall-clock sleeps (back-off, rate-limit waits, jitter) have no
observable effect on the data flow and are not modelled.  The upload
managers read the source file only through its size and its chunk count,
so their embedding takes the file size as a `Nat`; the bridge lemma
`split_file_nil_iff` records that the source's "empty parts list" test
coincides with the "size zero" test used here.
-/

/-- Bytes of a file, one `Nat` per byte. -/
abbrev Bytes := List Nat

/-- Fixed chunk size: `CHUNK_SIZE = int(19 * 1024 * 1024)` in
`client/splitter.py` and `client/uploader.py`. -/
def CHUNK_SIZE : Nat := 19 * 1024 * 1024

/-- Ceiling division on naturals, the exact meaning of
`math.ceil(file_size / CHUNK_SIZE)` used throughout the source. -/
def ceil_div (a b : Nat) : Nat := (a + b - 1) / b

/-- The read loop of `split_file` (client/splitter.py lines 29-42):
`f.read(CHUNK_SIZE)` repeatedly until the read comes back empty, each
non-empty chunk becoming one part file.  (In Python, `f.read(0)` returns
the empty bytes object at once, so a zero chunk size yields no chunks;
the `c = 0` disjunct mirrors that, though the engine only ever calls this
with `CHUNK_SIZE`.) -/
def readChunks (c : Nat) (f : Bytes) : List Bytes :=
  if h : c = 0 ∨ f = [] then []
  else f.take c :: readChunks c (f.drop c)
termination_by f.length
decreasing_by
  push_neg at h
  have hlen : 0 < f.length := List.length_pos.mpr h.2
  have hc : 0 < c := Nat.pos_of_ne_zero h.1
  simpa [List.length_drop] using Nat.sub_lt hlen hc

/-- `split_file` (client/splitter.py): an empty file yields no parts and
`total_parts = 0`; otherwise the file is read in `CHUNK_SIZE` chunks and
`total_parts = ceil(size / CHUNK_SIZE)`.  Parts are modelled by their
byte contents, in the order the loop writes them. -/
def split_file (f : Bytes) : List Bytes × Nat :=
  if f.length = 0 then ([], 0)
  else (readChunks CHUNK_SIZE f, ceil_div f.length CHUNK_SIZE)

/-- `join_files_here` (client/downloader.py lines 22-29): writes the bytes
of each part, in the exact order given, into the output file. -/
def join_files_here (parts : List Bytes) : Bytes := parts.flatten

/-- A remote locator for one transported part: the `message_id` and
`file_id` the upload managers record per part. -/
structure MsgInfo where
  message_id : Nat
  file_id : Nat
deriving DecidableEq

/-- Outcome of one `user_bot.send_document` attempt, as the retry loops
distinguish them: success with the returned locator; an
`ApiTelegramException` with error code 429 carrying a `retry_after`
duration; any other `ApiTelegramException` (re-raised at once); any other
exception (retried while attempts remain). -/
inductive SendOutcome where
  | success (m : MsgInfo)
  | rateLimit (retryAfter : Nat)
  | apiError
  | otherError
deriving DecidableEq

/-- One filename's entry of the persisted upload database.
`chunk_size = none` models an entry whose JSON lacks the `"chunk_size"`
key (as written by client/uploader.py); client/uploader_bot.py stores
`some CHUNK_SIZE` and reads it back with a 19 MiB default
(`existing_data.get("chunk_size", 19*1024*1024)`).  The constant
`"upload_method": "bot"` field is omitted. -/
structure Manifest where
  messages : List MsgInfo
  total_parts : Nat
  file_size_bytes : Nat
  chunk_size : Option Nat
deriving DecidableEq

/-- Result of one upload run: the boolean the Python function returns,
the final database entry for this filename, and the ordered trace of
manifests persisted by `save_json_db` during the run. -/
structure UploadResult where
  ok : Bool
  db : Option Manifest
  saves : List Manifest
deriving DecidableEq

/-- The literal `range(5)` bound of the per-part retry loop in
client/uploader_bot.py line 90. -/
def UPLOAD_ATTEMPTS : Nat := 5

/-- `UPLOAD_RETRIES = 10` from client/uploader.py line 17. -/
def UPLOAD_RETRIES : Nat := 10

namespace UploaderBot

/-- The body of the per-part retry loop of client/uploader_bot.py lines
90-133, iterating over the list of remaining attempt numbers: success
breaks with the locator; a 429 error sleeps `retry_after` and lets the
loop continue; any other Telegram API error is re-raised at once; any
other exception sleeps and retries while `attempt < total - 1`, else
re-raises; if the loop finishes all attempts without a break, the
`for`-`else` raises.  Every raise aborts the whole job, so abortion is
`none`. -/
def retryLoop (oc : Nat → SendOutcome) (total : Nat) : List Nat → Option MsgInfo
  | [] => none
  | a :: rest =>
    match oc a with
    | .success m => some m
    | .rateLimit _ => retryLoop oc total rest
    | .apiError => none
    | .otherError => if a < total - 1 then retryLoop oc total rest else none

/-- The per-part retry loop `for attempt in range(total)` started at
`attempt`. -/
def retryFrom (oc : Nat → SendOutcome) (total attempt : Nat) : Option MsgInfo :=
  retryLoop oc total (List.range' attempt (total - attempt))

/-- The part loop of client/uploader_bot.py lines 85-137: for each
remaining part index in increasing order, run the retry loop; on success
append the locator to `uploaded_message_info`, write the updated manifest
into the database and persist it (`save_json_db`) before moving on; on
abort return `False` with the database exactly as last persisted. -/
def uploadLoop (send : Nat → Nat → SendOutcome) (total_parts file_size : Nat) :
    List Nat → List MsgInfo → Option Manifest → List Manifest → UploadResult
  | [], _, db, saves => ⟨true, db, saves⟩
  | i :: rest, info, db, saves =>
    match retryFrom (send i) UPLOAD_ATTEMPTS 0 with
    | some m =>
      let info2 := info ++ [m]
      let man : Manifest := ⟨info2, total_parts, file_size, some CHUNK_SIZE⟩
      uploadLoop send total_parts file_size rest info2 (some man) (saves ++ [man])
    | none => ⟨false, db, saves⟩

/-- The automatic-resume logic of client/uploader_bot.py lines 57-67:
if the database holds an entry for this filename whose recorded part
count `k` satisfies `0 < k < ceil(file_size / stored_chunk_size)`, resume
from part index `k` with the recorded locators, else start from zero. -/
def resumeStart (file_size : Nat) (db : Option Manifest) : Nat × List MsgInfo :=
  match db with
  | some man =>
    let tpc := ceil_div file_size (man.chunk_size.getD CHUNK_SIZE)
    let k := man.messages.length
    if 0 < k ∧ k < tpc then (k, man.messages) else (0, [])
  | none => (0, [])

/-- `perform_upload` of client/uploader_bot.py, the Upload Manager that
client/main.py imports.  The source file is represented by its size (its
bytes flow only into the abstract transport); `db` is the database entry
for this filename.  After the resume check the file is split
(`split_file`); an empty parts list — equivalently, size zero, see
`split_file_nil_iff` — returns `True` at once with nothing transported;
otherwise the remaining parts are transported strictly in increasing
index order. -/
def perform_upload (send : Nat → Nat → SendOutcome) (file_size : Nat)
    (db : Option Manifest) : UploadResult :=
  let total_parts := ceil_div file_size CHUNK_SIZE
  let st := resumeStart file_size db
  if file_size = 0 then ⟨true, db, []⟩
  else uploadLoop send total_parts file_size
    (List.range' st.1 (total_parts - st.1)) st.2 db []

end UploaderBot

namespace Uploader

/-- Result of the per-part retry loop of client/uploader.py lines 87-121:
`ok` on success; `abort` when an exception propagates (a non-429 API
error, or any other error on the final attempt); `skip` when the loop
exhausts all `UPLOAD_RETRIES` attempts without a break — possible only
through repeated 429 responses, in which case this variant falls through
and silently continues with the next part. -/
inductive RetryResult where
  | ok (m : MsgInfo)
  | abort
  | skip
deriving DecidableEq

/-- The body of the per-part retry loop of client/uploader.py lines
87-121, iterating over the list of remaining attempt numbers (no
`for`-`else`: exhaustion falls through as `skip`). -/
def retryLoopU (oc : Nat → SendOutcome) (total : Nat) : List Nat → RetryResult
  | [] => .skip
  | a :: rest =>
    match oc a with
    | .success m => .ok m
    | .rateLimit _ => retryLoopU oc total rest
    | .apiError => .abort
    | .otherError => if a < total - 1 then retryLoopU oc total rest else .abort

/-- The per-part retry loop `for attempt in range(UPLOAD_RETRIES)`
started at `attempt`. -/
def retryFrom (oc : Nat → SendOutcome) (total attempt : Nat) : RetryResult :=
  retryLoopU oc total (List.range' attempt (total - attempt))

/-- The part loop of client/uploader.py lines 84-125; manifests are saved
without a `"chunk_size"` key. -/
def uploadLoop (send : Nat → Nat → SendOutcome) (total_parts file_size : Nat) :
    List Nat → List MsgInfo → Option Manifest → List Manifest → UploadResult
  | [], _, db, saves => ⟨true, db, saves⟩
  | i :: rest, info, db, saves =>
    match retryFrom (send i) UPLOAD_RETRIES 0 with
    | .ok m =>
      let info2 := info ++ [m]
      let man : Manifest := ⟨info2, total_parts, file_size, none⟩
      uploadLoop send total_parts file_size rest info2 (some man) (saves ++ [man])
    | .abort => ⟨false, db, saves⟩
    | .skip => uploadLoop send total_parts file_size rest info db saves

/-- `perform_upload` of client/uploader.py (the legacy variant, not the
one client/main.py imports): resume compares against
`ceil(file_size / CHUNK_SIZE)` directly and there is no empty-file early
return (a size-zero file gives zero parts and an empty loop). -/
def perform_upload (send : Nat → Nat → SendOutcome) (file_size : Nat)
    (db : Option Manifest) : UploadResult :=
  let total_parts := ceil_div file_size CHUNK_SIZE
  let st : Nat × List MsgInfo :=
    match db with
    | some man =>
      if 0 < man.messages.length ∧ man.messages.length < total_parts
      then (man.messages.length, man.messages) else (0, [])
    | none => (0, [])
  uploadLoop send total_parts file_size
    (List.range' st.1 (total_parts - st.1)) st.2 db []

end Uploader

/-- A manifest's recorded locator sequence is index-correct for the
transport `send`: the locator recorded at position `j` is exactly the one
the uploader_bot retry loop yields for part `j`. -/
def recordsCorrectly (send : Nat → Nat → SendOutcome) (ms : List MsgInfo) : Prop :=
  ∀ j, j < ms.length → UploaderBot.retryFrom (send j) UPLOAD_ATTEMPTS 0 = ms[j]?

/-- `DOWNLOAD_RETRIES = 5` from client/downloader.py line 19. -/
def DOWNLOAD_RETRIES : Nat := 5

/-- `DOWNLOAD_FOLDER = "downloads"` from client/downloader.py line 16:
the fixed folder that receives both the temporary parts directory and the
final joined file. -/
def DOWNLOAD_FOLDER : String := "downloads"

/-- `CONCURRENT_DOWNLOADS = 35` from client/downloader.py line 18; the
pool's scheduling itself is abstracted by the completion-order parameter
of `perform_download`. -/
def CONCURRENT_DOWNLOADS : Nat := 35

/-- Outcome of one `getFile` metadata request for a part, as
`download_part_worker` distinguishes them: an `ok` response carrying the
server-side file path; an API error whose description contains
`"wrong file_id"` (permanent, fails the part at once); any other API
error (raised as a `RequestException`, hence retried); a network-layer
`RequestException`. -/
inductive GetFileOutcome where
  | ok (server_path : String)
  | wrongFileId
  | apiError
  | netError
deriving DecidableEq

/-- Outcome of streaming the part's bytes from the resolved URL: the
bytes on success, or any `RequestException` / bad HTTP status (retried). -/
inductive FetchOutcome where
  | ok (bytes : Bytes)
  | error
deriving DecidableEq

/-- The body of the retry loop of `download_part_worker`
(client/downloader.py lines 39-74), iterating over the list of remaining
attempt numbers: each attempt resolves the locator (`getFile`) and then
streams the bytes; `"wrong file_id"` returns `None` immediately; any
other failure backs off and retries, returning `None` once the attempts
are exhausted.  The jitter and exponential back-off sleeps have no
effect on the data flow. -/
def workerLoop (gf : Nat → GetFileOutcome) (fb : Nat → FetchOutcome) :
    List Nat → Option Bytes
  | [] => none
  | a :: rest =>
    match gf a with
    | .wrongFileId => none
    | .ok _ =>
      match fb a with
      | .ok bytes => some bytes
      | .error => workerLoop gf fb rest
    | .apiError => workerLoop gf fb rest
    | .netError => workerLoop gf fb rest

/-- `download_part_worker` of client/downloader.py lines 32-74: the retry
loop `for attempt in range(total)` started at `attempt`. -/
def download_part_worker (gf : Nat → GetFileOutcome) (fb : Nat → FetchOutcome)
    (total attempt : Nat) : Option Bytes :=
  workerLoop gf fb (List.range' attempt (total - attempt))

/-- The `file_info` dictionary passed to `perform_download`: the filename
(added by client/main.py), the recorded locators and the declared total
part count. -/
structure FileInfo where
  name : String
  messages : List MsgInfo
  total_parts : Nat
deriving DecidableEq

/-- Observable outcome of one download run: the boolean the Python
function returns; whether the temporary parts directory was ever created
and whether it is gone at exit; and the final output file (path and byte
content) if one was produced. -/
structure DownloadResult where
  ok : Bool
  temp_dir_created : Bool
  temp_dir_removed : Bool
  output : Option (String × Bytes)
deriving DecidableEq

/-- The worker launched for part index `i`: looks up the recorded message
and runs `download_part_worker` against the transport outcomes for its
`file_id`.  (`executor.submit(download_part_worker, token,
msg_info['file_id'], part_path)` for `(i, msg_info)` in
`enumerate(messages)`.) -/
def workerOf (gf : Nat → Nat → GetFileOutcome) (fb : Nat → Nat → FetchOutcome)
    (fi : FileInfo) (i : Nat) : Option Bytes :=
  match fi.messages[i]? with
  | some msg => download_part_worker (gf msg.file_id) (fb msg.file_id) DOWNLOAD_RETRIES 0
  | none => none

/-- Insertion step of the key sort used to model
`sorted(results.keys())`. -/
def insertByKey (p : Nat × Bytes) : List (Nat × Bytes) → List (Nat × Bytes)
  | [] => [p]
  | q :: rest => if p.1 ≤ q.1 then p :: q :: rest else q :: insertByKey p rest

/-- Sorting the association list `results` by part index, the model of
`[results[i] for i in sorted(results.keys())]`. -/
def sortByKey : List (Nat × Bytes) → List (Nat × Bytes)
  | [] => []
  | p :: rest => insertByKey p (sortByKey rest)

/-- `perform_download` of client/downloader.py lines 77-136.  `completion`
is the order in which `as_completed` yields the part futures — every
dispatched part appears in it exactly once, in an order the pool does not
specify.  The early `return False` for an empty locator list happens
before the temporary directory is created and before any transport
activity.  Otherwise the per-part results are collected into `results`
keyed by part index (failures only counted), and: any failure aborts with
no join; on full success the results are sorted by part index and joined
into `DOWNLOAD_FOLDER/<name>`.  The `finally` block removes the temporary
directory on every path that created it. -/
def perform_download (gf : Nat → Nat → GetFileOutcome)
    (fb : Nat → Nat → FetchOutcome) (completion : List Nat)
    (fi : FileInfo) : DownloadResult :=
  if fi.messages = [] then ⟨false, false, false, none⟩
  else
    let results : List (Nat × Bytes) :=
      completion.filterMap fun i => (workerOf gf fb fi i).map fun b => (i, b)
    let failed_parts := completion.length - results.length
    if 0 < failed_parts then ⟨false, true, true, none⟩
    else
      ⟨true, true, true,
        some (DOWNLOAD_FOLDER ++ "/" ++ fi.name,
          join_files_here ((sortByKey results).map Prod.snd))⟩

theorem readChunks_join (c : Nat) (hc : c ≠ 0) :
    ∀ (n : Nat) (f : Bytes), f.length ≤ n → (readChunks c f).flatten = f := by
  intro n
  induction n with
  | zero =>
    intro f hf
    have : f = [] := List.eq_nil_of_length_eq_zero (Nat.le_zero.mp hf)
    subst this
    rw [readChunks]
    simp
  | succ n ih =>
    intro f hf
    by_cases hfe : f = []
    · subst hfe
      rw [readChunks]
      simp
    · rw [readChunks, dif_neg (by push_neg; exact ⟨hc, hfe⟩)]
      have hlen : 0 < f.length := List.length_pos.mpr hfe
      have hdrop : (f.drop c).length ≤ n := by
        rw [List.length_drop]
        omega
      rw [List.flatten_cons, ih (f.drop c) hdrop, List.take_append_drop]

theorem ceil_div_step (c l : Nat) (hc : c ≠ 0) (hl : l ≠ 0) :
    ceil_div l c = ceil_div (l - c) c + 1 := by
  have hc0 : 0 < c := Nat.pos_of_ne_zero hc
  have hl0 : 0 < l := Nat.pos_of_ne_zero hl
  unfold ceil_div
  by_cases hlc : l ≤ c
  · have h1 : l + c - 1 = (l - 1) + c := by omega
    rw [h1, Nat.add_div_right _ hc0]
    have h2 : l - c = 0 := by omega
    rw [h2]
    have h3 : (l - 1) / c = 0 := Nat.div_eq_of_lt (by omega)
    have h4 : (0 + c - 1) / c = 0 := Nat.div_eq_of_lt (by omega)
    omega
  · have hcl : c < l := by omega
    have h1 : l + c - 1 = (l - 1) + c := by omega
    rw [h1, Nat.add_div_right _ hc0]
    have h2 : l - c + c - 1 = (l - c - 1) + c := by omega
    rw [h2, Nat.add_div_right _ hc0]
    have h3 : l - 1 = (l - c - 1) + c := by omega
    rw [h3, Nat.add_div_right _ hc0]

theorem readChunks_length (c : Nat) (hc : c ≠ 0) :
    ∀ (n : Nat) (f : Bytes), f.length ≤ n →
      (readChunks c f).length = ceil_div f.length c := by
  intro n
  induction n with
  | zero =>
    intro f hf
    have : f = [] := List.eq_nil_of_length_eq_zero (Nat.le_zero.mp hf)
    subst this
    have h0 : (0 + c - 1) / c = 0 := Nat.div_eq_of_lt (by omega)
    rw [readChunks]
    simpa [ceil_div] using h0.symm
  | succ n ih =>
    intro f hf
    by_cases hfe : f = []
    · subst hfe
      have h0 : (0 + c - 1) / c = 0 := Nat.div_eq_of_lt (by omega)
      rw [readChunks]
      simpa [ceil_div] using h0.symm
    · rw [readChunks, dif_neg (by push_neg; exact ⟨hc, hfe⟩)]
      have hlen : 0 < f.length := List.length_pos.mpr hfe
      have hdrop : (f.drop c).length ≤ n := by
        rw [List.length_drop]
        omega
      rw [List.length_cons, ih (f.drop c) hdrop, List.length_drop]
      exact (ceil_div_step c f.length hc (by omega)).symm

/-- The source's "empty parts list" check (`if not parts_paths` in
client/uploader_bot.py) coincides with the "file size zero" check used by
the upload model. -/
theorem split_file_nil_iff (f : Bytes) : (split_file f).1 = [] ↔ f = [] := by
  constructor
  · intro h
    by_contra hne
    have hlen : 0 < f.length := List.length_pos.mpr hne
    unfold split_file at h
    rw [if_neg (by omega)] at h
    rw [readChunks, dif_neg (by push_neg; exact ⟨by unfold CHUNK_SIZE; omega, hne⟩)] at h
    exact List.cons_ne_nil _ _ h
  · intro h
    subst h
    rfl

/-- C1: for every file — empty, smaller than one chunk, or spanning many
chunks — joining `split_file`'s parts in the returned order with
`join_files_here` reproduces the original byte content exactly. -/
theorem splitJoinRoundTrip (f : Bytes) :
    join_files_here (split_file f).1 = f := by
  unfold split_file join_files_here
  by_cases h : f.length = 0
  · rw [if_pos h]
    exact (List.eq_nil_of_length_eq_zero h).symm
  · rw [if_neg h]
    exact readChunks_join CHUNK_SIZE (by unfold CHUNK_SIZE; omega) f.length f le_rfl

/-- C2: for every source file, `split_file` returns
`totalParts = ceil(size / CHUNK_SIZE)` — except that an empty file yields
zero parts — the length of the returned part list equals `totalParts`,
and the fixed chunk size is 19 MiB. -/
theorem splitTotalParts (f : Bytes) :
    (split_file f).2 =
      (if f.length = 0 then 0 else ceil_div f.length CHUNK_SIZE) ∧
    (split_file f).1.length = (split_file f).2 ∧
    CHUNK_SIZE = 19 * 1024 * 1024 := by
  refine ⟨?_, ?_, rfl⟩
  · unfold split_file
    by_cases h : f.length = 0
    · rw [if_pos h, if_pos h]
    · rw [if_neg h, if_neg h]
  · unfold split_file
    by_cases h : f.length = 0
    · rw [if_pos h]
      rfl
    · rw [if_neg h]
      exact readChunks_length CHUNK_SIZE (by unfold CHUNK_SIZE; omega) f.length f le_rfl

theorem pref_append_one (l t : List MsgInfo) : l <+: l ++ t := ⟨t, rfl⟩

theorem pref_refl (l : List MsgInfo) : l <+: l := ⟨[], List.append_nil l⟩

theorem pref_trans {l1 l2 l3 : List MsgInfo} (h1 : l1 <+: l2) (h2 : l2 <+: l3) :
    l1 <+: l3 := by
  obtain ⟨a, rfl⟩ := h1
  obtain ⟨b, rfl⟩ := h2
  exact ⟨a ++ b, (List.append_assoc _ _ _).symm⟩

theorem length_filterMap_lt {α β : Type} (f : α → Option β) :
    ∀ l : List α, (∃ x ∈ l, f x = none) → (l.filterMap f).length < l.length := by
  intro l
  induction l with
  | nil =>
    rintro ⟨x, hx, _⟩
    cases hx
  | cons a t ih =>
    rintro ⟨x, hx, hfx⟩
    cases hfa : f a with
    | none =>
      have := List.length_filterMap_le f t
      simp only [List.filterMap_cons, hfa, List.length_cons]
      omega
    | some b =>
      rcases List.mem_cons.mp hx with rfl | hxt
      · rw [hfx] at hfa
        cases hfa
      · have := ih ⟨x, hxt, hfx⟩
        simp only [List.filterMap_cons, hfa, List.length_cons]
        omega

theorem length_filterMap_eq {α β : Type} (f : α → Option β) :
    ∀ l : List α, (∀ x ∈ l, (f x).isSome) → (l.filterMap f).length = l.length := by
  intro l
  induction l with
  | nil => intro _; rfl
  | cons a t ih =>
    intro h
    cases hfa : f a with
    | none =>
      have := h a (List.mem_cons_self a t)
      rw [hfa] at this
      simp at this
    | some b =>
      simp only [List.filterMap_cons, hfa, List.length_cons]
      rw [ih (fun x hx => h x (List.mem_cons_of_mem a hx))]

theorem retryLoop_congr (oc oc' : Nat → SendOutcome) (total : Nat) :
    ∀ attempts : List Nat, (∀ a ∈ attempts, oc a = oc' a) →
      UploaderBot.retryLoop oc total attempts = UploaderBot.retryLoop oc' total attempts := by
  intro attempts
  induction attempts with
  | nil => intro _; rfl
  | cons a rest ih =>
    intro hag
    simp only [UploaderBot.retryLoop, hag a (List.mem_cons_self a rest)]
    cases oc' a with
    | success m => rfl
    | rateLimit r => exact ih (fun b hb => hag b (List.mem_cons_of_mem a hb))
    | apiError => rfl
    | otherError =>
      by_cases h2 : a < total - 1
      · rw [if_pos h2, if_pos h2]
        exact ih (fun b hb => hag b (List.mem_cons_of_mem a hb))
      · rw [if_neg h2, if_neg h2]

theorem retryFrom_congr (oc oc' : Nat → SendOutcome) (total attempt : Nat)
    (hag : ∀ a, attempt ≤ a → a < total → oc a = oc' a) :
    UploaderBot.retryFrom oc total attempt = UploaderBot.retryFrom oc' total attempt := by
  unfold UploaderBot.retryFrom
  apply retryLoop_congr
  intro a ha
  have hmem := List.mem_range'_1.mp ha
  exact hag a hmem.1 (by omega)

theorem uploadLoop_congr (send send' : Nat → Nat → SendOutcome) (tp fs : Nat) :
    ∀ (idxs : List Nat) (info : List MsgInfo) (db : Option Manifest) (saves : List Manifest),
      (∀ i ∈ idxs, ∀ a, a < UPLOAD_ATTEMPTS → send i a = send' i a) →
      UploaderBot.uploadLoop send tp fs idxs info db saves =
        UploaderBot.uploadLoop send' tp fs idxs info db saves := by
  intro idxs
  induction idxs with
  | nil => intro info db saves _; rfl
  | cons i rest ih =>
    intro info db saves hag
    have hr : UploaderBot.retryFrom (send i) UPLOAD_ATTEMPTS 0 =
        UploaderBot.retryFrom (send' i) UPLOAD_ATTEMPTS 0 :=
      retryFrom_congr (send i) (send' i) UPLOAD_ATTEMPTS 0
        (fun a _ hb => hag i (List.mem_cons_self i rest) a hb)
    simp only [UploaderBot.uploadLoop, hr]
    cases UploaderBot.retryFrom (send' i) UPLOAD_ATTEMPTS 0 with
    | some m => exact ih _ _ _ (fun j hj a ha => hag j (List.mem_cons_of_mem i hj) a ha)
    | none => rfl

theorem uploadLoop_records (send : Nat → Nat → SendOutcome) (tp fs : Nat) :
    ∀ (b a : Nat) (info : List MsgInfo) (db : Option Manifest) (saves : List Manifest),
      recordsCorrectly send info → info.length = a →
      (∀ m ∈ saves, recordsCorrectly send m.messages) →
      ∀ m ∈ (UploaderBot.uploadLoop send tp fs (List.range' a b) info db saves).saves,
        recordsCorrectly send m.messages := by
  intro b
  induction b with
  | zero =>
    intro a info db saves _ _ hsaves
    exact hsaves
  | succ b ih =>
    intro a info db saves hinfo hlen hsaves
    rw [List.range'_succ]
    simp only [UploaderBot.uploadLoop]
    cases hm : UploaderBot.retryFrom (send a) UPLOAD_ATTEMPTS 0 with
    | none => exact hsaves
    | some m =>
      have hinfo2 : recordsCorrectly send (info ++ [m]) := by
        intro j hj
        rw [List.length_append, List.length_singleton] at hj
        by_cases hjl : j < info.length
        · rw [List.getElem?_append_left hjl]
          exact hinfo j hjl
        · have hj_eq : j = info.length := by omega
          subst hj_eq
          rw [List.getElem?_concat_length, hlen]
          exact hm
      refine ih (a + 1) (info ++ [m]) _ _ hinfo2 (by simp [hlen]) ?_
      intro m' hm'
      rcases List.mem_append.mp hm' with h | h
      · exact hsaves m' h
      · rw [List.mem_singleton.mp h]
        exact hinfo2

theorem uploadLoop_pairwise (send : Nat → Nat → SendOutcome) (tp fs : Nat) :
    ∀ (idxs : List Nat) (info : List MsgInfo) (db : Option Manifest) (saves : List Manifest),
      (∀ m ∈ saves, m.messages <+: info) →
      List.Pairwise (fun x y => x.messages <+: y.messages) saves →
      List.Pairwise (fun x y => x.messages <+: y.messages)
        (UploaderBot.uploadLoop send tp fs idxs info db saves).saves := by
  intro idxs
  induction idxs with
  | nil => intro info db saves _ hp; exact hp
  | cons i rest ih =>
    intro info db saves hpref hp
    simp only [UploaderBot.uploadLoop]
    cases hm : UploaderBot.retryFrom (send i) UPLOAD_ATTEMPTS 0 with
    | none => exact hp
    | some m =>
      refine ih _ _ _ ?_ ?_
      · intro m' hm'
        rcases List.mem_append.mp hm' with h | h
        · exact pref_trans (hpref m' h) (pref_append_one info [m])
        · rw [List.mem_singleton.mp h]
      · rw [List.pairwise_append]
        refine ⟨hp, by simp, ?_⟩
        intro x hx y hy
        rw [List.mem_singleton.mp hy]
        exact pref_trans (hpref x hx) (pref_append_one info [m])

theorem uploadLoop_db_extends (send : Nat → Nat → SendOutcome) (tp fs : Nat) :
    ∀ (idxs : List Nat) (info0 info : List MsgInfo) (db : Option Manifest)
      (saves : List Manifest), info0 <+: info →
      (∀ m ∈ (UploaderBot.uploadLoop send tp fs idxs info db saves).saves,
          m ∈ saves ∨ info0 <+: m.messages) ∧
        ((UploaderBot.uploadLoop send tp fs idxs info db saves).db = db ∨
          ∃ man, (UploaderBot.uploadLoop send tp fs idxs info db saves).db = some man ∧
            info0 <+: man.messages) := by
  intro idxs
  induction idxs with
  | nil =>
    intro info0 info db saves _
    exact ⟨fun m hm => Or.inl hm, Or.inl rfl⟩
  | cons i rest ih =>
    intro info0 info db saves hpref
    simp only [UploaderBot.uploadLoop]
    cases hm : UploaderBot.retryFrom (send i) UPLOAD_ATTEMPTS 0 with
    | none => exact ⟨fun m hm2 => Or.inl hm2, Or.inl rfl⟩
    | some m =>
      have hpref2 : info0 <+: info ++ [m] := pref_trans hpref (pref_append_one info [m])
      obtain ⟨h1, h2⟩ := ih info0 (info ++ [m])
        (some ⟨info ++ [m], tp, fs, some CHUNK_SIZE⟩)
        (saves ++ [⟨info ++ [m], tp, fs, some CHUNK_SIZE⟩]) hpref2
      constructor
      · intro m' hm'
        rcases h1 m' hm' with h | h
        · rcases List.mem_append.mp h with h3 | h3
          · exact Or.inl h3
          · refine Or.inr ?_
            rw [List.mem_singleton.mp h3]
            exact hpref2
        · exact Or.inr h
      · rcases h2 with h | h
        · exact Or.inr ⟨_, h, hpref2⟩
        · exact Or.inr h

theorem uploadLoop_saves_db (send : Nat → Nat → SendOutcome) (tp fs : Nat) :
    ∀ (idxs : List Nat) (info : List MsgInfo) (db : Option Manifest) (saves : List Manifest),
      (∀ m ∈ saves, ∃ man, db = some man ∧ m.messages <+: man.messages) →
      (∀ m ∈ saves, m.messages <+: info) →
      ∀ m ∈ (UploaderBot.uploadLoop send tp fs idxs info db saves).saves,
        ∃ man, (UploaderBot.uploadLoop send tp fs idxs info db saves).db = some man ∧
          m.messages <+: man.messages := by
  intro idxs
  induction idxs with
  | nil => intro info db saves h1 _; exact h1
  | cons i rest ih =>
    intro info db saves h1 h2
    simp only [UploaderBot.uploadLoop]
    cases hm : UploaderBot.retryFrom (send i) UPLOAD_ATTEMPTS 0 with
    | none => exact h1
    | some m =>
      refine ih (info ++ [m]) (some ⟨info ++ [m], tp, fs, some CHUNK_SIZE⟩)
        (saves ++ [⟨info ++ [m], tp, fs, some CHUNK_SIZE⟩]) ?_ ?_
      · intro m' hm'
        rcases List.mem_append.mp hm' with h | h
        · exact ⟨_, rfl, pref_trans (h2 m' h) (pref_append_one info [m])⟩
        · rw [List.mem_singleton.mp h]
          exact ⟨_, rfl, pref_refl _⟩
      · intro m' hm'
        rcases List.mem_append.mp hm' with h | h
        · exact pref_trans (h2 m' h) (pref_append_one info [m])
        · rw [List.mem_singleton.mp h]

theorem uploadLoop_ok_length (send : Nat → Nat → SendOutcome) (tp fs : Nat) :
    ∀ (b a : Nat) (info : List MsgInfo) (db : Option Manifest) (saves : List Manifest),
      info.length = a →
      (UploaderBot.uploadLoop send tp fs (List.range' a b) info db saves).ok = true →
      (b = 0 ∧ (UploaderBot.uploadLoop send tp fs (List.range' a b) info db saves).db = db) ∨
        ∃ man,
          (UploaderBot.uploadLoop send tp fs (List.range' a b) info db saves).db = some man ∧
          man.messages.length = a + b := by
  intro b
  induction b with
  | zero => intro a info db saves _ _; exact Or.inl ⟨rfl, rfl⟩
  | succ b ih =>
    intro a info db saves hlen hok
    rw [List.range'_succ] at hok ⊢
    simp only [UploaderBot.uploadLoop] at hok ⊢
    cases hm : UploaderBot.retryFrom (send a) UPLOAD_ATTEMPTS 0 with
    | none =>
      rw [hm] at hok
      simp at hok
    | some m =>
      rw [hm] at hok
      rcases ih (a + 1) (info ++ [m]) (some ⟨info ++ [m], tp, fs, some CHUNK_SIZE⟩)
          (saves ++ [⟨info ++ [m], tp, fs, some CHUNK_SIZE⟩]) (by simp [hlen]) hok with
        ⟨hb, hdb⟩ | ⟨man, hdb, hlen2⟩
      · subst hb
        refine Or.inr ⟨⟨info ++ [m], tp, fs, some CHUNK_SIZE⟩, hdb, ?_⟩
        simp [hlen]
      · exact Or.inr ⟨man, hdb, by omega⟩

theorem perform_upload_eq (send : Nat → Nat → SendOutcome) (s : Nat)
    (db : Option Manifest) (hs : s ≠ 0) :
    UploaderBot.perform_upload send s db =
      UploaderBot.uploadLoop send (ceil_div s CHUNK_SIZE) s
        (List.range' (UploaderBot.resumeStart s db).1
          (ceil_div s CHUNK_SIZE - (UploaderBot.resumeStart s db).1))
        (UploaderBot.resumeStart s db).2 db [] := by
  simp only [UploaderBot.perform_upload]
  rw [if_neg hs]

theorem resumeStart_resume (s : Nat)
    (man : Manifest) (hcs : man.chunk_size = some CHUNK_SIZE)
    (h0 : 0 < man.messages.length)
    (hlt : man.messages.length < ceil_div s CHUNK_SIZE) :
    UploaderBot.resumeStart s (some man) = (man.messages.length, man.messages) := by
  simp only [UploaderBot.resumeStart, hcs, Option.getD_some]
  rw [if_pos ⟨h0, hlt⟩]

theorem resumeStart_records (send : Nat → Nat → SendOutcome) (s : Nat)
    (db : Option Manifest)
    (hdb : ∀ man, db = some man → recordsCorrectly send man.messages) :
    recordsCorrectly send (UploaderBot.resumeStart s db).2 ∧
    (UploaderBot.resumeStart s db).2.length = (UploaderBot.resumeStart s db).1 := by
  cases db with
  | none => exact ⟨fun j hj => absurd hj (Nat.not_lt_zero j), rfl⟩
  | some man =>
    simp only [UploaderBot.resumeStart]
    by_cases h : 0 < man.messages.length ∧
        man.messages.length < ceil_div s (man.chunk_size.getD CHUNK_SIZE)
    · rw [if_pos h]
      exact ⟨hdb man rfl, rfl⟩
    · rw [if_neg h]
      exact ⟨fun j hj => absurd hj (Nat.not_lt_zero j), rfl⟩

/-- C3: during every upload run (fresh or resumed from an index-correct
manifest), each manifest persisted by the Upload Manager records exactly
the locators of parts `0..k-1` for its length `k` — the recorded sequence
is a prefix of the full part sequence in strictly increasing index order,
never skipping an index or holding parts out of order — and each
persisted manifest is a prefix of every later persisted one, because the
manifest is persisted right after each successful part and before the
next part is attempted. -/
theorem uploadManifestPrefixInvariant (send : Nat → Nat → SendOutcome) (s : Nat)
    (db : Option Manifest)
    (hdb : ∀ man, db = some man → recordsCorrectly send man.messages) :
    (∀ m ∈ (UploaderBot.perform_upload send s db).saves,
        recordsCorrectly send m.messages) ∧
    List.Pairwise (fun x y => x.messages <+: y.messages)
      (UploaderBot.perform_upload send s db).saves := by
  by_cases hs : s = 0
  · subst hs
    constructor
    · intro m hm
      simp [UploaderBot.perform_upload] at hm
    · simp [UploaderBot.perform_upload]
  · rw [perform_upload_eq send s db hs]
    obtain ⟨hrec, hlen⟩ := resumeStart_records send s db hdb
    constructor
    · exact uploadLoop_records send (ceil_div s CHUNK_SIZE) s _ _ _ db [] hrec hlen
        (fun m hm => absurd hm (List.not_mem_nil m))
    · exact uploadLoop_pairwise send (ceil_div s CHUNK_SIZE) s _ _ db []
        (fun m hm => absurd hm (List.not_mem_nil m)) List.Pairwise.nil

/-- Witness for C3 at a concrete one-part upload. -/
theorem uploadManifestPrefixInvariant_witness :
    (⟨[⟨5, 5⟩], 1, 1, some CHUNK_SIZE⟩ : Manifest) ∈
      (UploaderBot.perform_upload (fun _ _ => SendOutcome.success ⟨5, 5⟩) 1 none).saves ∧
    recordsCorrectly (fun _ _ => SendOutcome.success ⟨5, 5⟩) [⟨5, 5⟩] := by
  have hmem : (⟨[⟨5, 5⟩], 1, 1, some CHUNK_SIZE⟩ : Manifest) ∈
      (UploaderBot.perform_upload (fun _ _ => SendOutcome.success ⟨5, 5⟩) 1 none).saves := by
    decide
  exact ⟨hmem,
    (uploadManifestPrefixInvariant (fun _ _ => SendOutcome.success ⟨5, 5⟩) 1 none
      (fun man h => by cases h)).1 _ hmem⟩

/-- C4: re-invoking the Upload Manager with an existing manifest for the
same filename that records `k` parts, `0 < k < totalParts`, transports
only parts `k..totalParts-1` (the outcome is unchanged under any change
of the transport at part indices below `k`, so no earlier part is
re-transported), every manifest it persists extends the `k` previously
recorded locators unchanged, and on success the final manifest holds all
`totalParts` locators. -/
theorem resumeUploadsOnlyRemainingParts (send send' : Nat → Nat → SendOutcome)
    (s : Nat) (man : Manifest)
    (hcs : man.chunk_size = some CHUNK_SIZE)
    (h0 : 0 < man.messages.length)
    (hlt : man.messages.length < ceil_div s CHUNK_SIZE) :
    ((∀ i, man.messages.length ≤ i → ∀ a, send i a = send' i a) →
      UploaderBot.perform_upload send s (some man) =
        UploaderBot.perform_upload send' s (some man)) ∧
    (∀ m ∈ (UploaderBot.perform_upload send s (some man)).saves,
      man.messages <+: m.messages) ∧
    ((UploaderBot.perform_upload send s (some man)).ok = true →
      ∃ man2, (UploaderBot.perform_upload send s (some man)).db = some man2 ∧
        man.messages <+: man2.messages ∧
        man2.messages.length = ceil_div s CHUNK_SIZE) := by
  have hs : s ≠ 0 := by
    intro h
    subst h
    have h0' : ceil_div 0 CHUNK_SIZE = 0 := by
      unfold ceil_div CHUNK_SIZE
      exact Nat.div_eq_of_lt (by omega)
    omega
  have hres := resumeStart_resume s man hcs h0 hlt
  rw [perform_upload_eq send s (some man) hs, perform_upload_eq send' s (some man) hs, hres]
  refine ⟨?_, ?_, ?_⟩
  · intro hag
    exact uploadLoop_congr send send' _ s _ _ _ _
      (fun i hi a _ => hag i (List.mem_range'_1.mp hi).1 a)
  · intro m hm
    rcases (uploadLoop_db_extends send _ s _ man.messages man.messages (some man) []
        (pref_refl _)).1 m hm with h | h
    · exact absurd h (List.not_mem_nil m)
    · exact h
  · intro hok
    rcases uploadLoop_ok_length send _ s (ceil_div s CHUNK_SIZE - man.messages.length)
        man.messages.length man.messages (some man) [] rfl hok with ⟨hb, _⟩ | ⟨man2, hdb, hlen2⟩
    · omega
    · refine ⟨man2, hdb, ?_, by omega⟩
      rcases (uploadLoop_db_extends send _ s _ man.messages man.messages (some man) []
          (pref_refl _)).2 with h | h
      · rw [hdb] at h
        have : man2 = man := Option.some.inj h
        rw [this]
      · obtain ⟨man3, hdb3, hpref3⟩ := h
        rw [hdb] at hdb3
        have : man3 = man2 := (Option.some.inj hdb3).symm
        rw [← this]
        exact hpref3

/-- Witness for C4 at a two-part file resumed after one recorded part. -/
theorem resumeUploadsOnlyRemainingParts_witness :
    (⟨[⟨1, 1⟩], 2, 2 * CHUNK_SIZE, some CHUNK_SIZE⟩ : Manifest).messages <+:
      [⟨1, 1⟩, ⟨2, 2⟩] := by
  have h := resumeUploadsOnlyRemainingParts (fun _ _ => SendOutcome.success ⟨2, 2⟩)
    (fun _ _ => SendOutcome.success ⟨2, 2⟩) (2 * CHUNK_SIZE)
    ⟨[⟨1, 1⟩], 2, 2 * CHUNK_SIZE, some CHUNK_SIZE⟩ rfl (by decide) (by decide)
  exact h.2.1 ⟨[⟨1, 1⟩, ⟨2, 2⟩], 2, 2 * CHUNK_SIZE, some CHUNK_SIZE⟩ (by decide)

/-- C8 counterexample: a transport whose part-0 attempts 0..4 all fail
with a generic error while attempt 5 would succeed.  Under the claimed
10-attempt ceiling the part is transported and the job succeeds (as the
legacy client/uploader.py with `UPLOAD_RETRIES = 10` indeed does), but
the active Upload Manager (client/uploader_bot.py, the one client/main.py
imports) gives up after its `range(5)` loop and the job fails. -/
theorem uploadRetryCeilingCounterexample :
    (UploaderBot.perform_upload
        (fun _ a => if a < 5 then SendOutcome.otherError else SendOutcome.success ⟨3, 3⟩)
        1 none).ok = false ∧
    (Uploader.perform_upload
        (fun _ a => if a < 5 then SendOutcome.otherError else SendOutcome.success ⟨3, 3⟩)
        1 none).ok = true := by
  constructor
  · decide
  · decide

/-- C8 amended: in the active Upload Manager the per-part retry loop
makes at most `UPLOAD_ATTEMPTS = 5` attempts (the run's outcome is
unchanged under any change of the transport at attempt indices ≥ 5; the
10-attempt `UPLOAD_RETRIES` ceiling appears only in the unused
client/uploader.py variant); and whenever the job aborts, every manifest
persisted during the run is still held as a prefix of the final database
entry — no progress is lost or rolled back. -/
theorem uploadRetryCeiling (send send' : Nat → Nat → SendOutcome) (s : Nat)
    (db : Option Manifest) :
    ((∀ i a, a < UPLOAD_ATTEMPTS → send i a = send' i a) →
      UploaderBot.perform_upload send s db = UploaderBot.perform_upload send' s db) ∧
    (∀ m ∈ (UploaderBot.perform_upload send s db).saves,
      ∃ man, (UploaderBot.perform_upload send s db).db = some man ∧
        m.messages <+: man.messages) := by
  constructor
  · intro hag
    by_cases hs : s = 0
    · subst hs
      rfl
    · rw [perform_upload_eq send s db hs, perform_upload_eq send' s db hs]
      exact uploadLoop_congr send send' _ s _ _ _ _ (fun i _ a ha => hag i a ha)
  · by_cases hs : s = 0
    · subst hs
      intro m hm
      simp [UploaderBot.perform_upload] at hm
    · rw [perform_upload_eq send s db hs]
      exact uploadLoop_saves_db send _ s _ _ db []
        (fun m hm => absurd hm (List.not_mem_nil m))
        (fun m hm => absurd hm (List.not_mem_nil m))

/-- Witness for C8: the run cannot observe attempts ≥ 5, and a failed
two-part run keeps its persisted first-part manifest in the database. -/
theorem uploadRetryCeiling_witness :
    (UploaderBot.perform_upload (fun _ _ => SendOutcome.otherError) 1 none =
      UploaderBot.perform_upload
        (fun _ a => if a < 5 then SendOutcome.otherError else SendOutcome.success ⟨9, 9⟩)
        1 none) ∧
    (∃ man,
      (UploaderBot.perform_upload
          (fun i _ => if i = 0 then SendOutcome.success ⟨4, 4⟩ else SendOutcome.otherError)
          (2 * CHUNK_SIZE) none).db = some man ∧
      (⟨[⟨4, 4⟩], 2, 2 * CHUNK_SIZE, some CHUNK_SIZE⟩ : Manifest).messages <+:
        man.messages) := by
  constructor
  · exact (uploadRetryCeiling (fun _ _ => SendOutcome.otherError)
      (fun _ a => if a < 5 then SendOutcome.otherError else SendOutcome.success ⟨9, 9⟩)
      1 none).1 (fun i a ha => (if_pos ha).symm)
  · exact (uploadRetryCeiling
      (fun i _ => if i = 0 then SendOutcome.success ⟨4, 4⟩ else SendOutcome.otherError)
      (fun i _ => if i = 0 then SendOutcome.success ⟨4, 4⟩ else SendOutcome.otherError)
      (2 * CHUNK_SIZE) none).2
      ⟨[⟨4, 4⟩], 2, 2 * CHUNK_SIZE, some CHUNK_SIZE⟩ (by decide)

/-- C9: an empty source file uploads as a successful no-op: `split_file`
yields an empty part list with `totalParts = 0`, the run reports success,
nothing is transported, nothing is persisted and the database entry is
left untouched — for every transport and every pre-existing database
state. -/
theorem emptyFileUploadNoOp :
    split_file [] = ([], 0) ∧
    ∀ (send : Nat → Nat → SendOutcome) (db : Option Manifest),
      UploaderBot.perform_upload send 0 db = ⟨true, db, []⟩ := by
  exact ⟨rfl, fun send db => rfl⟩

/-- C10: a manifest whose recorded locator list is empty makes
`perform_download` fail immediately — no temporary directory, no
transport activity, no output, for every transport, completion order,
filename and declared `total_parts` (including 0) — while the empty-file
upload is a successful no-op. -/
theorem emptyManifestDownloadFails :
    (∀ (gf : Nat → Nat → GetFileOutcome) (fb : Nat → Nat → FetchOutcome)
        (completion : List Nat) (name : String) (tp : Nat),
      perform_download gf fb completion ⟨name, [], tp⟩ = ⟨false, false, false, none⟩) ∧
    (∀ (send : Nat → Nat → SendOutcome) (db : Option Manifest),
      (UploaderBot.perform_upload send 0 db).ok = true) := by
  exact ⟨fun gf fb completion name tp => rfl, fun send db => rfl⟩

/-- C5: whenever some part's worker ends with no result (retries
exhausted or a permanent locator error), the download job returns a
failed result with the Joiner never invoked and no output file produced,
and the temporary parts directory is gone at exit; moreover on every run
(success or failure) the temporary directory is removed exactly when it
was created. -/
theorem downloadAllOrNothing (gf : Nat → Nat → GetFileOutcome)
    (fb : Nat → Nat → FetchOutcome) (completion : List Nat) (fi : FileInfo) :
    (fi.messages ≠ [] → (∃ i ∈ completion, workerOf gf fb fi i = none) →
      perform_download gf fb completion fi = ⟨false, true, true, none⟩) ∧
    (perform_download gf fb completion fi).temp_dir_created =
      (perform_download gf fb completion fi).temp_dir_removed := by
  constructor
  · intro hne hex
    simp only [perform_download]
    rw [if_neg hne]
    have hlt : (completion.filterMap
        fun i => (workerOf gf fb fi i).map fun b => (i, b)).length < completion.length := by
      apply length_filterMap_lt
      obtain ⟨i, hi, hw⟩ := hex
      exact ⟨i, hi, by rw [hw]; rfl⟩
    rw [if_pos (by omega)]
  · simp only [perform_download]
    by_cases h1 : fi.messages = []
    · rw [if_pos h1]
    · rw [if_neg h1]
      by_cases h2 : 0 < completion.length - (completion.filterMap
          fun i => (workerOf gf fb fi i).map fun b => (i, b)).length
      · rw [if_pos h2]
      · rw [if_neg h2]

/-- Witness for C5: one part whose every fetch attempt hits a network
error. -/
theorem downloadAllOrNothing_witness :
    perform_download (fun _ _ => GetFileOutcome.netError) (fun _ _ => FetchOutcome.error)
      [0] ⟨"f", [⟨1, 7⟩], 1⟩ = ⟨false, true, true, none⟩ :=
  (downloadAllOrNothing (fun _ _ => GetFileOutcome.netError) (fun _ _ => FetchOutcome.error)
    [0] ⟨"f", [⟨1, 7⟩], 1⟩).1 (by decide) ⟨0, by decide, by decide⟩

/-- C7 counterexample: an incomplete manifest — one recorded locator but
`total_parts = 2` — is not rejected: with the single recorded part
fetchable, `perform_download` reports success instead of the claimed
incomplete-manifest failure. -/
theorem incompleteManifestCounterexample :
    (perform_download (fun _ _ => GetFileOutcome.ok "p") (fun _ _ => FetchOutcome.ok [7])
      [0] ⟨"f", [⟨1, 1⟩], 2⟩).ok = true := by
  decide

/-- C7 amended: the only up-front rejection is of manifests whose
recorded locator list is empty — those fail before the temporary
directory is created and before any transport activity; a manifest whose
non-empty locator count differs from `total_parts` is not validated: if
every recorded part is fetchable the job reports success regardless of
`total_parts`. -/
theorem incompleteManifestHandling (gf : Nat → Nat → GetFileOutcome)
    (fb : Nat → Nat → FetchOutcome) (completion : List Nat) (fi : FileInfo) :
    (fi.messages = [] →
      perform_download gf fb completion fi = ⟨false, false, false, none⟩) ∧
    (fi.messages ≠ [] → (∀ i ∈ completion, (workerOf gf fb fi i).isSome) →
      (perform_download gf fb completion fi).ok = true) := by
  constructor
  · intro h
    simp only [perform_download]
    rw [if_pos h]
  · intro hne hall
    simp only [perform_download]
    rw [if_neg hne]
    have heq : (completion.filterMap
        fun i => (workerOf gf fb fi i).map fun b => (i, b)).length = completion.length := by
      apply length_filterMap_eq
      intro x hx
      have hx2 := hall x hx
      cases hw : workerOf gf fb fi x with
      | none => rw [hw] at hx2; simp at hx2
      | some b => rfl
    rw [if_neg (by omega)]

/-- Witness for C7's amended statement: the empty-manifest rejection and
the unvalidated incomplete manifest that downloads successfully. -/
theorem incompleteManifestHandling_witness :
    perform_download (fun _ _ => GetFileOutcome.ok "p") (fun _ _ => FetchOutcome.ok [7])
      [0] ⟨"g", [], 3⟩ = ⟨false, false, false, none⟩ ∧
    (perform_download (fun _ _ => GetFileOutcome.ok "p") (fun _ _ => FetchOutcome.ok [7])
      [0] ⟨"f", [⟨1, 1⟩], 2⟩).ok = true :=
  ⟨(incompleteManifestHandling (fun _ _ => GetFileOutcome.ok "p")
      (fun _ _ => FetchOutcome.ok [7]) [0] ⟨"g", [], 3⟩).1 rfl,
   (incompleteManifestHandling (fun _ _ => GetFileOutcome.ok "p")
      (fun _ _ => FetchOutcome.ok [7]) [0] ⟨"f", [⟨1, 1⟩], 2⟩).2 (by decide) (by decide)⟩

/-- C6 at the failing input: a two-part download whose workers complete
out of order (completion order `[1, 0]`) is still joined in strictly
increasing part-index order, but the final file appears at the fixed
`downloads/<filename>` path: `perform_download` takes no destination
directory at all (its caller client/main.py passes `download_path` as a
third argument the two-parameter function does not accept), so the
output is never produced at `destinationDir/filename` — for instance not
at `/dl/f` when the supplied destination is `/dl`. -/
theorem downloadOutputPathFixed :
    perform_download (fun _ _ => GetFileOutcome.ok "x")
        (fun fid _ => if fid = 10 then FetchOutcome.ok [5, 5] else FetchOutcome.ok [6])
        [1, 0] ⟨"f", [⟨1, 10⟩, ⟨2, 20⟩], 2⟩ =
      ⟨true, true, true, some (DOWNLOAD_FOLDER ++ "/" ++ "f", [5, 5, 6])⟩ ∧
    DOWNLOAD_FOLDER ++ "/" ++ "f" ≠ "/dl/f" := by
  constructor
  · decide
  · decide
